import Mathlib

/-!
Verification of the SpaceComm ground-station link layer
(`satellite_comm.py`), shallowly embedded in Lean 4.

Bytes are modelled as `Nat` (with explicit `< 256` bounds where the
Python `bytes` type guarantees them), byte strings as `List Nat`.
Fallible Python code (`struct.pack`/`struct.unpack` range errors,
`raise ValueError`) is modelled with `Except String`.  The retry loops
of `send_packet` / `receive_packet` are modelled by explicit attempt
outcome oracles (`Nat → …`), recording how many attempts ran, how the
packet counters changed and how many disconnect-and-sleep backoffs
were performed.
-/

/-! ## Constants (satellite_comm.py lines 11-15) -/

def PRIMARY_HEADER_SIZE : Nat := 6

def MAX_PACKET_SIZE : Nat := 1024

def RETRY_LIMIT : Nat := 5

def RETRY_DELAY : Nat := 2

/-! ## Frame codec (`build_space_packet` / `parse_space_packet`) -/

/-- One big-endian 16-bit field of `struct.pack('>HHH', …)`:
the two bytes of `n`, high byte first (valid for `n ≤ 0xFFFF`). -/
def packU16 (n : Nat) : List Nat := [n / 256, n % 256]

/-- `struct.unpack` of one big-endian 16-bit field. -/
def unpackU16 (hi lo : Nat) : Nat := 256 * hi + lo

/-- `SatelliteComm.build_space_packet(apid, seq, payload)`:
`length = len(payload) + PRIMARY_HEADER_SIZE - 1`, then
`struct.pack('>HHH', apid, seq, length) + payload`.  `struct.pack`
raises `struct.error` when a field does not fit in an unsigned 16-bit
slot, modelled by the `Except.error` branch. -/
def build_space_packet (apid seq : Nat) (payload : List Nat) :
    Except String (List Nat) :=
  let length := payload.length + PRIMARY_HEADER_SIZE - 1
  if apid ≤ 0xFFFF && seq ≤ 0xFFFF && length ≤ 0xFFFF then
    .ok (packU16 apid ++ packU16 seq ++ packU16 length ++ payload)
  else
    .error "struct.error"

/-- `SatelliteComm.parse_space_packet(packet)`: raises
`ValueError("Packet too short")` when the input has fewer than
`PRIMARY_HEADER_SIZE = 6` bytes; otherwise unpacks apid and seq from
the first four header bytes (the third header field, the embedded
length, is bound but never checked) and returns everything after the
6-byte header as the payload. -/
def parse_space_packet (packet : List Nat) :
    Except String (Nat × Nat × List Nat) :=
  if packet.length < PRIMARY_HEADER_SIZE then
    .error "Packet too short"
  else
    .ok (unpackU16 (packet.getD 0 0) (packet.getD 1 0),
         unpackU16 (packet.getD 2 0) (packet.getD 3 0),
         packet.drop PRIMARY_HEADER_SIZE)

/-! ## Packet transport retry loops (`send_packet` / `receive_packet`)

Each raw transmit attempt of `send_packet` either returns normally
(modelled `true`) or raises a transport exception (modelled `false`);
the oracle `outcomes k` gives the result of the k-th raw attempt
(0-indexed).  The result records the returned boolean, the number of
loop iterations performed, the change to the `packets_sent` counter,
and the number of backoff events (a `disconnect()` immediately
followed by a `time.sleep(RETRY_DELAY)`, performed in the `except`
handler). -/

structure SendResult where
  success : Bool
  attempts : Nat
  sentDelta : Nat
  backoffs : Nat
  deriving DecidableEq, Repr

/-- The `for attempt in range(RETRY_LIMIT)` loop of
`SatelliteComm.send_packet`, starting at attempt index `start` with
`fuel` iterations left: a successful attempt increments
`packets_sent` and returns `True` at once; a failing attempt runs the
`except` handler (`disconnect(); time.sleep(RETRY_DELAY)`, one
backoff) and retries; an exhausted loop returns `False`. -/
def send_loop (outcomes : Nat → Bool) (start fuel : Nat) : SendResult :=
  match fuel with
  | 0 => ⟨false, 0, 0, 0⟩
  | fuel + 1 =>
    if outcomes start then ⟨true, 1, 1, 0⟩
    else
      let r := send_loop outcomes (start + 1) fuel
      ⟨r.success, r.attempts + 1, r.sentDelta, r.backoffs + 1⟩

/-- `SatelliteComm.send_packet` under the attempt oracle `outcomes`. -/
def send_packet (outcomes : Nat → Bool) : SendResult :=
  send_loop outcomes 0 RETRY_LIMIT

/-- One raw receive attempt of `receive_packet`: the socket call
either raises (`err`) or returns a byte string `d` (possibly empty). -/
inductive RecvOutcome where
  | err
  | data (d : List Nat)
  deriving DecidableEq, Repr

structure RecvResult where
  result : Option (List Nat)
  attempts : Nat
  receivedDelta : Nat
  backoffs : Nat
  deriving DecidableEq, Repr

/-- The retry loop of `SatelliteComm.receive_packet`: a raised
attempt runs the `except` handler (backoff) and retries; an attempt
returning data falls through to `if data:` — non-empty data
increments `packets_received` and is returned, while empty data just
falls to the next iteration with no `disconnect()` and no sleep; an
exhausted loop returns `None`. -/
def recv_loop (outcomes : Nat → RecvOutcome) (start fuel : Nat) : RecvResult :=
  match fuel with
  | 0 => ⟨none, 0, 0, 0⟩
  | fuel + 1 =>
    match outcomes start with
    | .err =>
      let r := recv_loop outcomes (start + 1) fuel
      ⟨r.result, r.attempts + 1, r.receivedDelta, r.backoffs + 1⟩
    | .data d =>
      if d.isEmpty then
        let r := recv_loop outcomes (start + 1) fuel
        ⟨r.result, r.attempts + 1, r.receivedDelta, r.backoffs⟩
      else
        ⟨some d, 1, 1, 0⟩

/-- `SatelliteComm.receive_packet` under the attempt oracle `outcomes`. -/
def receive_packet (outcomes : Nat → RecvOutcome) : RecvResult :=
  recv_loop outcomes 0 RETRY_LIMIT

/-- Classify one receive outcome: `some d` when the raw call returned
non-empty data `d`, `none` when it raised or returned empty data. -/
def nonemptyData : RecvOutcome → Option (List Nat)
  | .err => none
  | .data d => if d.isEmpty then none else some d

/-- Number of raising (`err`) attempts among
`outcomes start, …, outcomes (start + len - 1)`. -/
def countErrRange (outcomes : Nat → RecvOutcome) (start len : Nat) : Nat :=
  match len with
  | 0 => 0
  | len + 1 =>
    (if outcomes start = .err then 1 else 0) + countErrRange outcomes (start + 1) len

/-! ## Command dispatch (`get_command_code` / `send_command`) -/

/-- The `command_map` dictionary of `get_command_code`. -/
def command_map : List (String × Nat) :=
  [("reboot", 0x01), ("steer", 0x02), ("get_photo", 0x03), ("get_telemetry", 0x04)]

/-- `get_command_code(command)`: `command_map.get(command, 0xFF)`. -/
def get_command_code (command : String) : Nat :=
  (command_map.lookup command).getD 0xFF

/-- `SatelliteComm.send_command(command, params)`, with the transport
abstracted as the function `send` (the observable behaviour of
`send_packet` on the built frame) and the clock reading
`now = int(time.time())` passed in: payload is the one-byte command
code followed by `params or b''`, framed with apid 0x100 and sequence
`now & 0xFFFF` by `build_space_packet`, and the frame is handed to
`send` whose boolean result is returned. -/
def send_command (send : List Nat → Bool) (command : String)
    (params : Option (List Nat)) (now : Nat) : Except String Bool :=
  let code := get_command_code command
  let payload := code :: params.getD []
  (build_space_packet 0x100 (now % 65536) payload).map send

/-! ## Photo reassembly (`request_photo`) -/

/-- The `while True:` reassembly loop of `SatelliteComm.request_photo`:
`recvs i` is the result of its (i+1)-st `receive_packet()` call
(`none` = receive returned `None`), `acc` the `photo_data`
accumulator.  A failed receive breaks the loop and returns the bytes
accumulated so far; otherwise the frame is parsed (an exception from
`parse_space_packet` propagates, the `Except.error` branch) and the
payload appended — minus the trailing sentinel 0xFF byte, ending the
loop, when the payload ends with 0xFF.  The break test is Python's
`if not packet:`, so an empty byte string (which `receive_packet`
can in fact never return) would break the loop like a `None` does.
`fuel` bounds how many iterations we unfold of the unbounded Python
loop; the outer `none` means the loop did not finish within `fuel`
iterations. -/
def photo_loop (recvs : Nat → Option (List Nat)) (i fuel : Nat)
    (acc : List Nat) : Option (Except String (List Nat)) :=
  match fuel with
  | 0 => none
  | fuel + 1 =>
    match recvs i with
    | none => some (.ok acc)
    | some packet =>
      if packet.isEmpty then some (.ok acc)
      else match parse_space_packet packet with
      | .error e => some (.error e)
      | .ok (_apid, _seq, payload) =>
        if payload.getLast? = some 0xFF then
          some (.ok (acc ++ payload.dropLast))
        else
          photo_loop recvs (i + 1) fuel (acc ++ payload)

/-- `SatelliteComm.request_photo`: when sending the `get_photo`
command fails (`sendOk = false`) the function returns `None`;
otherwise it runs the reassembly loop on the received packets and
returns the accumulated bytes. -/
def request_photo (sendOk : Bool) (recvs : Nat → Option (List Nat))
    (fuel : Nat) : Option (Except String (Option (List Nat))) :=
  if sendOk then
    (photo_loop recvs 0 fuel []).map (fun r => r.map some)
  else
    some (.ok none)

/-! ## Telemetry decoding (`request_telemetry`)

The payload is decoded with `payload.decode(errors='ignore')` — UTF-8
with invalid sequences dropped.  Skipping one byte at an invalid
position and resynchronising yields the same character stream as
CPython's span-based `ignore` handler, because continuation bytes
(0x80–0xBF) are never valid start bytes, so the remaining bytes of a
broken sequence are skipped one by one. -/

/-- Is `b` a UTF-8 continuation byte (0x80–0xBF)? -/
def isCont (b : Nat) : Bool := 0x80 ≤ b && b ≤ 0xBF

/-- One multi-byte UTF-8 sequence headed by byte `b` with the
following bytes `rest`: the decoded character and the number of
continuation bytes consumed, or `none` when no valid sequence starts
at `b` (overlong forms, surrogates and code points above 0x10FFFF are
invalid, as in CPython). -/
def utf8Step (b : Nat) (rest : List Nat) : Option (Char × Nat) :=
  if 0xC2 ≤ b && b ≤ 0xDF then
    match rest with
    | c1 :: _ =>
      if isCont c1 then
        some (Char.ofNat ((b - 0xC0) * 0x40 + (c1 - 0x80)), 1)
      else none
    | [] => none
  else if 0xE0 ≤ b && b ≤ 0xEF then
    match rest with
    | c1 :: c2 :: _ =>
      if ((if b = 0xE0 then 0xA0 ≤ c1 && c1 ≤ 0xBF
           else if b = 0xED then 0x80 ≤ c1 && c1 ≤ 0x9F
           else isCont c1) && isCont c2) then
        some (Char.ofNat ((b - 0xE0) * 0x1000 + (c1 - 0x80) * 0x40 + (c2 - 0x80)), 2)
      else none
    | _ => none
  else if 0xF0 ≤ b && b ≤ 0xF4 then
    match rest with
    | c1 :: c2 :: c3 :: _ =>
      if ((if b = 0xF0 then 0x90 ≤ c1 && c1 ≤ 0xBF
           else if b = 0xF4 then 0x80 ≤ c1 && c1 ≤ 0x8F
           else isCont c1) && isCont c2 && isCont c3) then
        some (Char.ofNat ((b - 0xF0) * 0x40000 + (c1 - 0x80) * 0x1000 +
          (c2 - 0x80) * 0x40 + (c3 - 0x80)), 3)
      else none
    | _ => none
  else none

/-- `bytes.decode('utf-8', errors='ignore')`: decode a valid UTF-8
sequence at the head, or skip one byte and resynchronise.  Skipping
one byte at an invalid position yields the same character stream as
CPython's span-based `ignore` handler, because continuation bytes
(0x80–0xBF) are never valid start bytes, so the remaining bytes of a
broken sequence get skipped one by one. -/
def utf8go : Nat → List Nat → List Char
  | 0, _ => []
  | _ + 1, [] => []
  | fuel + 1, b :: rest =>
    if b < 0x80 then Char.ofNat b :: utf8go fuel rest
    else
      match utf8Step b rest with
      | some (ch, k) => ch :: utf8go fuel (rest.drop k)
      | none => utf8go fuel rest

/-- `bytes.decode('utf-8', errors='ignore')`, with the input length as
recursion fuel: every iteration of `utf8go` consumes at least one byte,
so `l.length` iterations always suffice. -/
def utf8DecodeIgnore (l : List Nat) : List Char :=
  utf8go l.length l

/-- Python `str.split(sep)` with a one-character separator: split at
every occurrence, keeping empty segments (`"".split(",") == [""]`). -/
def pySplit (sep : Char) : List Char → List (List Char)
  | [] => [[]]
  | c :: cs =>
    if c = sep then [] :: pySplit sep cs
    else
      match pySplit sep cs with
      | [] => [[c]]
      | s :: rest => (c :: s) :: rest

/-- The `dict(item.split('=') for item in …)` step: Python's `dict`
constructor walks the sequence and raises ValueError at any element
that is not a two-element sequence, so a single segment whose
`split('=')` has a third part makes the whole construction fail. -/
def pairsOf : List (List Char) → Option (List (List Char × List Char))
  | [] => some []
  | item :: rest =>
    match pySplit '=' item with
    | [k, v] => (pairsOf rest).map (fun ps => (k, v) :: ps)
    | _ => none

/-- The guarded telemetry parse of `request_telemetry` (the `try:`
body, lines 173-179): decode the payload ignoring invalid bytes,
split on commas, keep segments containing `=`, and build the dict;
any exception (in particular from a kept segment with more than one
`=`) is caught and turned into `None`. -/
def telemetry_parse (payload : List Nat) :
    Option (List (List Char × List Char)) :=
  let items := (pySplit ',' (utf8DecodeIgnore payload)).filter
    (fun item => '=' ∈ item)
  pairsOf items

/-- `SatelliteComm.request_telemetry` with the transport outcomes
passed in: `sendOk` is `send_command('get_telemetry')`'s result and
`recv` is `receive_packet()`'s.  The no-data test is Python's
`if not packet:`, covering both `None` and an empty byte string.
The `parse_space_packet` call sits outside the `try:` block, so its
ValueError propagates to the caller (`Except.error`); only the
decode-and-dict step is guarded. -/
def request_telemetry (sendOk : Bool) (recv : Option (List Nat)) :
    Except String (Option (List (List Char × List Char))) :=
  if !sendOk then .ok none
  else
    match recv with
    | none => .ok none
    | some packet =>
      if packet.isEmpty then .ok none
      else match parse_space_packet packet with
      | .error e => .error e
      | .ok (_apid, _seq, payload) => .ok (telemetry_parse payload)

/-! ## Steering calculation (`calculate_steering`)

`calculate_steering` works with Python floats (IEEE-754 binary64) and
packs the results as big-endian IEEE-754 binary32
(`struct.pack('>fff', …)`).  The model represents a finite double
exactly, as a sign plus a dyadic magnitude `n * 2^e`; every
arithmetic step computes the exact rational result (as an integer
numerator over a positive integer denominator — plain integer
arithmetic throughout, so everything reduces inside the kernel) and
rounds it to the format with round-to-nearest, ties-to-even, as
IEEE-754 prescribes. -/

/-- A Python float (IEEE-754 binary64 value).  A finite value is
`(-1)^neg * n * 2^e`; the representation produced by rounding is
canonical (mantissa `n` in `[2^52, 2^53)` for normal values, `e` at
the minimum exponent for subnormal ones, `n = 0, e = 0` for zero), so
structural equality is value equality plus the IEEE sign of zero. -/
inductive PyFloat where
  | finite (neg : Bool) (n : Nat) (e : Int)
  | inf (neg : Bool)
  | nan
  deriving DecidableEq, Repr

/-- Floor of log₂ for naturals (`n ≥ 1`), fuel-structural so that it
reduces inside the kernel. -/
def natLog2Fuel : Nat → Nat → Nat
  | 0, _ => 0
  | fuel + 1, n => if n ≤ 1 then 0 else natLog2Fuel fuel (n / 2) + 1

def natLog2 (n : Nat) : Nat := natLog2Fuel n n

/-- Ceiling of log₂ for naturals (`n ≥ 1`): least k with n ≤ 2^k. -/
def natClog2Fuel : Nat → Nat → Nat
  | 0, _ => 0
  | fuel + 1, n => if n ≤ 1 then 0 else natClog2Fuel fuel ((n + 1) / 2) + 1

def natClog2 (n : Nat) : Nat := natClog2Fuel n n

/-- ⌊log₂ (num / den)⌋ for positive `num`, `den`. -/
def fracLog2 (num den : Nat) : Int :=
  if den ≤ num then (natLog2 (num / den) : Int)
  else -(natClog2 ((den + num - 1) / num) : Int)

/-- Round the positive rational `num / den` to a binary floating-point
format with `prec` bits of precision, minimum exponent `eminLsb` for
the unit in the last place, and overflow threshold `2 ^ maxExp`,
using round to nearest, ties to even: the rounded mantissa and
exponent (`(0, 0)` on total underflow), or `none` on overflow. -/
def roundMag (prec : Nat) (eminLsb maxExp : Int) (num den : Nat) :
    Option (Nat × Int) :=
  let e : Int := max (fracLog2 num den - (prec - 1)) eminLsb
  let (num2, den2) : Nat × Nat :=
    if 0 ≤ e then (num, den * 2 ^ e.toNat) else (num * 2 ^ (-e).toNat, den)
  let f := num2 / den2
  let r := num2 % den2
  let n := if 2 * r < den2 then f
           else if den2 < 2 * r then f + 1
           else if f % 2 = 0 then f else f + 1
  let ne : Nat × Int := if n = 2 ^ prec then (n / 2, e + 1) else (n, e)
  if ne.1 = 0 then some (0, 0)
  else if maxExp - prec + 1 ≤ ne.2 then none
  else some ne

/-- The signed exact value `(-1)^neg * n * 2^e` as an integer
numerator over a positive power-of-two denominator. -/
def dyadicQ (neg : Bool) (n : Nat) (e : Int) : Int × Nat :=
  let v : Int := if neg then -(n : Int) else (n : Int)
  if 0 ≤ e then (v * 2 ^ e.toNat, 1) else (v, 2 ^ (-e).toNat)

/-- Round an exact nonzero rational `num / den` (`den > 0`) to
IEEE-754 binary64; overflow gives a signed infinity, total underflow
a signed zero. -/
def doubleOfRat (num : Int) (den : Nat) : PyFloat :=
  if num = 0 then .finite false 0 0
  else
    match roundMag 53 (-1074) 1024 num.natAbs den with
    | some (n, e) => .finite (num < 0) n e
    | none => .inf (num < 0)

/-- IEEE-754 binary64 subtraction (Python `a - b`): exact rational
difference of finite operands, rounded; an exact zero difference has
sign + except that (-0) - (+0) = -0; the usual special rules for
infinities and NaN. -/
def pySub : PyFloat → PyFloat → PyFloat
  | .nan, _ => .nan
  | _, .nan => .nan
  | .inf s, .inf t => if s = t then .nan else .inf s
  | .inf s, .finite _ _ _ => .inf s
  | .finite _ _ _, .inf t => .inf (!t)
  | .finite s a ea, .finite t b eb =>
    let (n1, d1) := dyadicQ s a ea
    let (n2, d2) := dyadicQ t b eb
    let num := n1 * (d2 : Int) - n2 * (d1 : Int)
    if num = 0 then .finite (s && !t) 0 0
    else doubleOfRat num (d1 * d2)

/-- IEEE-754 binary64 multiplication (Python `a * b`): exact rational
product of finite operands, rounded; zero results carry the XOR of
the operand signs; inf · 0 is NaN. -/
def pyMul : PyFloat → PyFloat → PyFloat
  | .nan, _ => .nan
  | _, .nan => .nan
  | .inf s, .inf t => .inf (xor s t)
  | .inf s, .finite t b _ => if b = 0 then .nan else .inf (xor s t)
  | .finite s a _, .inf t => if a = 0 then .nan else .inf (xor s t)
  | .finite s a ea, .finite t b eb =>
    if a = 0 || b = 0 then .finite (xor s t) 0 0
    else
      let (n1, d1) := dyadicQ s a ea
      let (n2, d2) := dyadicQ t b eb
      doubleOfRat (n1 * n2) (d1 * d2)

/-- The Python literal `0.1`: the binary64 nearest to 1/10. -/
def pointOne : PyFloat := doubleOfRat 1 10

/-- `struct.pack('>f', x)` for one double `x`: convert to binary32
(round to nearest, ties to even) and emit the 4 bytes big-endian.
A finite double whose converted magnitude reaches 2^128 raises
OverflowError ("float too large to pack with f format"), modelled by
`none`; infinities and NaN pack to their standard encodings (CPython
emits the quiet NaN 0x7fc00000). -/
def packF32 (x : PyFloat) : Option (List Nat) :=
  match x with
  | .nan => some [0x7F, 0xC0, 0x00, 0x00]
  | .inf neg => some [if neg then 0xFF else 0x7F, 0x80, 0x00, 0x00]
  | .finite neg n e =>
    if n = 0 then some [if neg then 0x80 else 0x00, 0x00, 0x00, 0x00]
    else
      let (num, den) : Nat × Nat :=
        if 0 ≤ e then (n * 2 ^ e.toNat, 1) else (n, 2 ^ (-e).toNat)
      match roundMag 24 (-149) 128 num den with
      | none => none
      | some (n2, e2) =>
        if n2 = 0 then some [if neg then 0x80 else 0x00, 0x00, 0x00, 0x00]
        else
          let word :=
            (if neg then 0x80000000 else 0) +
              (if 0x800000 ≤ n2 then
                (e2 + 150).toNat * 0x800000 + (n2 - 0x800000)
              else
                n2)
          some [word / 0x1000000 % 256, word / 0x10000 % 256,
                word / 0x100 % 256, word % 256]

def isDigit (c : Char) : Bool := '0' ≤ c && c ≤ '9'

def digVal (c : Char) : Nat := c.toNat - '0'.toNat

def natOfDigits (l : List Char) : Nat :=
  l.foldl (fun acc c => acc * 10 + digVal c) 0

/-- The whitespace `float(str)` strips. -/
def isPySpace (c : Char) : Bool :=
  c = ' ' || c = '\t' || c = '\n' || c = '\r' || c = '\x0b' || c = '\x0c'

def lowerChar (c : Char) : Char :=
  if 'A' ≤ c && c ≤ 'Z' then Char.ofNat (c.toNat + 32) else c

/-- Start code points of the Unicode Nd decimal-digit runs outside
ASCII; each run is ten consecutive code points with decimal values
0–9.  CPython's `float(str)` maps these to ASCII digits before
parsing. -/
def ndRangeStarts : List Nat :=
  [1632, 1776, 1984, 2406, 2534, 2662, 2790, 2918, 3046, 3174, 3302,
   3430, 3558, 3664, 3792, 3872, 4160, 4240, 6112, 6160, 6470, 6608,
   6784, 6800, 6992, 7088, 7232, 7248, 42528, 43216, 43264, 43472,
   43504, 43600, 44016, 65296, 66720, 68912, 69734, 69872, 69942,
   70096, 70384, 70736, 70864, 71248, 71360, 71472, 71904, 72016,
   72784, 73040, 73120, 92768, 92864, 93008, 120782, 120792, 120802,
   120812, 120822, 123200, 123632, 125264, 130032]

/-- Non-ASCII Unicode whitespace (Py_UNICODE_ISSPACE above 0x7F);
CPython's `float(str)` maps these to a plain space before parsing. -/
def uniSpaceRanges : List (Nat × Nat) :=
  [(133, 133), (160, 160), (5760, 5760), (8192, 8202), (8232, 8233),
   (8239, 8239), (8287, 8287), (12288, 12288)]

/-- CPython's `_PyUnicode_TransformDecimalAndSpaceToASCII`, run by
`float(str)` before the ASCII parse: code points below 0x80 pass
through unchanged; a non-ASCII Unicode decimal digit becomes the
corresponding ASCII digit, a non-ASCII Unicode whitespace becomes a
space, and anything else is kept (and later fails the ASCII parse). -/
def transformDecimalAndSpace (c : Char) : Char :=
  if c.toNat < 128 then c
  else
    match ndRangeStarts.find? (fun s => s ≤ c.toNat && c.toNat < s + 10) with
    | some s => Char.ofNat (48 + (c.toNat - s))
    | none =>
      if uniSpaceRanges.any (fun p => p.1 ≤ c.toNat && c.toNat ≤ p.2) then ' '
      else c

/-- PEP 515 underscores in `float(str)`: an underscore is legal only
directly between two digits and is removed; `prevDigit` says whether
the previous character was a digit.  ("1_0" parses as 10, "1__0",
"_1", "1_", "1_.5" all raise ValueError.) -/
def stripUnderscoresGo : Bool → List Char → Option (List Char)
  | _, [] => some []
  | prevDigit, c :: rest =>
    if c = '_' then
      if prevDigit then
        match rest with
        | d :: _ => if isDigit d then stripUnderscoresGo false rest else none
        | [] => none
      else none
    else
      (stripUnderscoresGo (isDigit c) rest).map (fun l => c :: l)

def stripUnderscores (l : List Char) : Option (List Char) :=
  stripUnderscoresGo false l

/-- Split a float literal at its first 'e'/'E' into mantissa part and
optional exponent part. -/
def splitExp : List Char → List Char × Option (List Char)
  | [] => ([], none)
  | c :: cs =>
    if c = 'e' || c = 'E' then ([], some cs)
    else
      let (m, ex) := splitExp cs
      (c :: m, ex)

def parseSign : List Char → Bool × List Char
  | '+' :: cs => (false, cs)
  | '-' :: cs => (true, cs)
  | cs => (false, cs)

/-- `digits [. digits]` with at least one digit: the combined digit
string as a natural plus the number of fractional digits. -/
def parseMantissa (cs : List Char) : Option (Nat × Nat) :=
  let ip := cs.takeWhile isDigit
  let rest := cs.dropWhile isDigit
  match rest with
  | [] => if ip.isEmpty then none else some (natOfDigits ip, 0)
  | '.' :: rest2 =>
    let fp := rest2.takeWhile isDigit
    let rest3 := rest2.dropWhile isDigit
    if !rest3.isEmpty then none
    else if ip.isEmpty && fp.isEmpty then none
    else some (natOfDigits (ip ++ fp), fp.length)
  | _ => none

def parseExpPart (cs : List Char) : Option Int :=
  let (neg, ds) := parseSign cs
  if ds.isEmpty || !(ds.all isDigit) then none
  else some (if neg then -(natOfDigits ds : Int) else (natOfDigits ds : Int))

/-- The double denoted by `(-1)^neg * digits * 10^(ex - fracLen)`. -/
def mkDouble (neg : Bool) (digits fracLen : Nat) (ex : Int) : PyFloat :=
  if digits = 0 then .finite neg 0 0
  else
    let num : Int := if neg then -(digits : Int) else (digits : Int)
    let e10 : Int := ex - fracLen
    if 0 ≤ e10 then doubleOfRat (num * 10 ^ e10.toNat) 1
    else doubleOfRat num (10 ^ (-e10).toNat)

/-- Python `float(str)`: transform non-ASCII digits and whitespace to
ASCII, strip surrounding whitespace, validate-and-remove PEP 515
underscores, then an optional sign followed by `inf`/`infinity`/`nan`
(case-insensitive) or a decimal literal `digits[.digits][e[sign]digits]`
with at least one mantissa digit, converted to the nearest binary64
(overflowing literals give an infinity, underflowing ones a signed
zero, as CPython's strtod does).  Returns `none` (ValueError) on
anything else. -/
def pyFloatParse (s : List Char) : Option PyFloat :=
  let s0 := s.map transformDecimalAndSpace
  let t := ((s0.dropWhile isPySpace).reverse.dropWhile isPySpace).reverse
  match stripUnderscores t with
  | none => none
  | some t2 =>
    let (neg, body) := parseSign t2
    let lower := body.map lowerChar
    if lower = ['i', 'n', 'f'] ||
       lower = ['i', 'n', 'f', 'i', 'n', 'i', 't', 'y'] then
      some (.inf neg)
    else if lower = ['n', 'a', 'n'] then some .nan
    else
      let (mantPart, expPart) := splitExp body
      match parseMantissa mantPart with
      | none => none
      | some (digits, fracLen) =>
        match expPart with
        | none => some (mkDouble neg digits fracLen 0)
        | some ecs =>
          match parseExpPart ecs with
          | none => none
          | some ex => some (mkDouble neg digits fracLen ex)

/-- A Python dict of strings (the telemetry maps): insertion-ordered
association list, later entries overwriting earlier ones, so lookup
takes the last binding of a key. -/
def dictGet (d : List (List Char × List Char)) (k : List Char) :
    Option (List Char) :=
  ((d.filter (fun p => p.1 = k)).getLast?).map (fun p => p.2)

/-- `float(d[k])`: `none` models both `KeyError` (key absent) and
`ValueError` (value not parseable as a float), both caught by
`calculate_steering`'s `except`. -/
def float_of_field (d : List (List Char × List Char)) (k : List Char) :
    Option PyFloat :=
  (dictGet d k).bind pyFloatParse

def pos_x_key : List Char := ['p', 'o', 's', '_', 'x']

def pos_y_key : List Char := ['p', 'o', 's', '_', 'y']

def pos_z_key : List Char := ['p', 'o', 's', '_', 'z']

/-- `SatelliteComm.calculate_steering(current_telemetry,
target_telemetry)`: reads pos_x/pos_y/pos_z from both maps via
`float(...)`, computes the per-axis difference target − current,
scales by the fixed proportional gain 0.1, and packs the three
results as big-endian 32-bit floats (`struct.pack('>fff', …)`).
Any exception in the `try:` body — KeyError, ValueError from
`float`, or OverflowError from the pack — is caught and yields
`b''`. -/
def calculate_steering (current target : List (List Char × List Char)) :
    List Nat :=
  match float_of_field target pos_x_key, float_of_field current pos_x_key,
        float_of_field target pos_y_key, float_of_field current pos_y_key,
        float_of_field target pos_z_key, float_of_field current pos_z_key with
  | some tx, some cx, some ty, some cy, some tz, some cz =>
    let sx := pyMul (pySub tx cx) pointOne
    let sy := pyMul (pySub ty cy) pointOne
    let sz := pyMul (pySub tz cz) pointOne
    match packF32 sx, packF32 sy, packF32 sz with
    | some bx, some b2, some bz => bx ++ b2 ++ bz
    | _, _, _ => []
  | _, _, _, _, _, _ => []

/-! ## Theorems -/

lemma packU16_unpackU16 (n : Nat) :
    unpackU16 (n / 256) (n % 256) = n := by
  unfold unpackU16
  omega

lemma build_parse_ok (apid seq : Nat) (payload : List Nat)
    (hapid : apid ≤ 65535) (hseq : seq ≤ 65535)
    (hlen : payload.length ≤ 65530) :
    ∃ frame, build_space_packet apid seq payload = .ok frame ∧
      parse_space_packet frame = .ok (apid, seq, payload) := by
  have hlenfield : payload.length + PRIMARY_HEADER_SIZE - 1 ≤ 0xFFFF := by
    unfold PRIMARY_HEADER_SIZE
    omega
  refine ⟨packU16 apid ++ packU16 seq ++
      packU16 (payload.length + PRIMARY_HEADER_SIZE - 1) ++ payload, ?_, ?_⟩
  · unfold build_space_packet
    simp only [decide_eq_true_eq, Bool.and_eq_true]
    rw [if_pos ⟨⟨by simpa using hapid, by simpa using hseq⟩, by simpa using hlenfield⟩]
  · unfold parse_space_packet packU16 PRIMARY_HEADER_SIZE
    simp only [List.cons_append, List.nil_append, List.length_cons,
      List.getD, List.drop, List.get?]
    rw [if_neg (by simp)]
    simp [unpackU16, Option.getD_some]
    omega

/-- C2 -- Round trip: for all apid, sequence in [0, 65535] and every
byte payload of length in [0, 1019], parsing the packet built by
`build_space_packet apid seq payload` succeeds and returns exactly
(apid, sequence, payload). -/
theorem decode_encode_roundtrip (apid seq : Nat) (payload : List Nat)
    (hapid : apid ≤ 65535) (hseq : seq ≤ 65535)
    (hlen : payload.length ≤ 1019)
    (hbytes : ∀ b ∈ payload, b < 256) :
    ∃ frame, build_space_packet apid seq payload = .ok frame ∧
      parse_space_packet frame = .ok (apid, seq, payload) :=
  build_parse_ok apid seq payload hapid hseq (by omega)

/-- Witness for C2 at apid = 0x100, seq = 7, payload = [65, 66]. -/
theorem decode_encode_roundtrip_witness :
    ∃ frame, build_space_packet 0x100 7 [65, 66] = .ok frame ∧
      parse_space_packet frame = .ok (0x100, 7, [65, 66]) :=
  decode_encode_roundtrip 0x100 7 [65, 66] (by decide) (by decide)
    (by decide) (by decide)

/-- C3 -- `parse_space_packet` fails (with the packet-too-short
`ValueError`) exactly when its input is shorter than 6 bytes; on any
input of at least 6 bytes it succeeds and the returned payload is all
bytes after the 6-byte header, whatever the embedded length field
(bytes 4 and 5) holds: the length field never influences the result. -/
theorem parse_space_packet_short_iff (packet : List Nat) :
    ((∃ e, parse_space_packet packet = .error e) ↔ packet.length < 6) ∧
    (6 ≤ packet.length →
      parse_space_packet packet =
        .ok (unpackU16 (packet.getD 0 0) (packet.getD 1 0),
             unpackU16 (packet.getD 2 0) (packet.getD 3 0),
             packet.drop 6)) := by
  unfold parse_space_packet PRIMARY_HEADER_SIZE
  constructor
  · constructor
    · intro ⟨e, he⟩
      by_contra hlen
      rw [if_neg (by omega)] at he
      exact Except.noConfusion he
    · intro hlen
      exact ⟨"Packet too short", by rw [if_pos hlen]⟩
  · intro hlen
    rw [if_neg (by omega)]

/-- Witness for C3 at a 7-byte packet whose length field (1024) wildly
disagrees with its actual 1-byte payload. -/
theorem parse_space_packet_short_iff_witness :
    6 ≤ ([0, 1, 0, 2, 4, 0, 99] : List Nat).length ∧
    parse_space_packet [0, 1, 0, 2, 4, 0, 99] =
      .ok (unpackU16 (([0, 1, 0, 2, 4, 0, 99] : List Nat).getD 0 0)
             (([0, 1, 0, 2, 4, 0, 99] : List Nat).getD 1 0),
           unpackU16 (([0, 1, 0, 2, 4, 0, 99] : List Nat).getD 2 0)
             (([0, 1, 0, 2, 4, 0, 99] : List Nat).getD 3 0),
           ([0, 1, 0, 2, 4, 0, 99] : List Nat).drop 6) :=
  ⟨by decide, (parse_space_packet_short_iff [0, 1, 0, 2, 4, 0, 99]).2 (by decide)⟩

/-- C7 -- Length-field law: whenever `build_space_packet` succeeds, the
third big-endian 16-bit field of the 6-byte header (bytes 4 and 5) of
the produced frame equals `len(payload) + 5`, i.e.
`len(payload) + PRIMARY_HEADER_SIZE - 1` with `PRIMARY_HEADER_SIZE = 6`. -/
theorem build_space_packet_length_field (apid seq : Nat) (payload : List Nat)
    (frame : List Nat) (h : build_space_packet apid seq payload = .ok frame) :
    unpackU16 (frame.getD 4 0) (frame.getD 5 0) = payload.length + 5 ∧
    payload.length + 5 = payload.length + PRIMARY_HEADER_SIZE - 1 := by
  unfold build_space_packet at h
  by_cases hok : (apid ≤ 0xFFFF && seq ≤ 0xFFFF &&
      payload.length + PRIMARY_HEADER_SIZE - 1 ≤ 0xFFFF) = true
  · rw [if_pos hok] at h
    have hframe : frame = packU16 apid ++ packU16 seq ++
        packU16 (payload.length + PRIMARY_HEADER_SIZE - 1) ++ payload := by
      cases h
      rfl
    simp only [Bool.and_eq_true, decide_eq_true_eq] at hok
    subst hframe
    unfold packU16 unpackU16 PRIMARY_HEADER_SIZE
    simp only [List.cons_append, List.nil_append, List.getD, List.get?,
      Option.getD_some]
    constructor
    · have h5 : payload.length + 6 - 1 = payload.length + 5 := by omega
      rw [h5]
      unfold PRIMARY_HEADER_SIZE at hok
      omega
    · rfl
  · rw [if_neg hok] at h
    exact Except.noConfusion h

/-- Witness for C7 at apid = 3, seq = 4, payload = [9, 9, 9]. -/
theorem build_space_packet_length_field_witness :
    unpackU16 (([0, 3, 0, 4, 0, 8, 9, 9, 9] : List Nat).getD 4 0)
        (([0, 3, 0, 4, 0, 8, 9, 9, 9] : List Nat).getD 5 0) =
      ([9, 9, 9] : List Nat).length + 5 ∧
    ([9, 9, 9] : List Nat).length + 5 =
      ([9, 9, 9] : List Nat).length + PRIMARY_HEADER_SIZE - 1 :=
  build_space_packet_length_field 3 4 [9, 9, 9] [0, 3, 0, 4, 0, 8, 9, 9, 9] rfl

lemma send_loop_all_fail (outcomes : Nat → Bool) (start fuel : Nat)
    (h : ∀ k, k < fuel → outcomes (start + k) = false) :
    send_loop outcomes start fuel = ⟨false, fuel, 0, fuel⟩ := by
  induction fuel generalizing start with
  | zero => rfl
  | succ n ih =>
    have h0 : outcomes start = false := by simpa using h 0 (Nat.succ_pos n)
    rw [send_loop, h0]
    simp only [Bool.false_eq_true, if_false]
    rw [ih (start + 1) (fun k hk => by
      rw [Nat.add_assoc, Nat.add_comm 1 k]
      exact h (k + 1) (Nat.succ_lt_succ hk))]

lemma send_loop_first_success (outcomes : Nat → Bool) (start fuel k : Nat)
    (hk : k < fuel) (hsucc : outcomes (start + k) = true)
    (hfail : ∀ j, j < k → outcomes (start + j) = false) :
    send_loop outcomes start fuel = ⟨true, k + 1, 1, k⟩ := by
  induction k generalizing start fuel with
  | zero =>
    cases fuel with
    | zero => exact absurd hk (Nat.lt_irrefl 0)
    | succ n =>
      rw [send_loop]
      simp only [Nat.add_zero] at hsucc
      rw [hsucc]
      simp
  | succ m ih =>
    cases fuel with
    | zero => exact absurd hk (Nat.not_lt_zero _)
    | succ n =>
      have h0 : outcomes start = false := by simpa using hfail 0 (Nat.succ_pos m)
      rw [send_loop, h0]
      simp only [Bool.false_eq_true, if_false]
      rw [ih (start + 1) n (Nat.lt_of_succ_lt_succ hk)
        (by rw [Nat.add_assoc, Nat.add_comm 1 m]; exact hsucc)
        (fun j hj => by
          rw [Nat.add_assoc, Nat.add_comm 1 j]
          exact hfail (j + 1) (Nat.succ_lt_succ hj))]

/-- C4 -- Retry bound of `send_packet`: if every one of the first 5 raw
attempts fails, `send_packet` performs exactly `RETRY_LIMIT = 5`
attempts, each followed by one disconnect-and-sleep backoff, returns
`False` and leaves `packets_sent` unchanged; if the attempt with
0-based index k (k < 5, i.e. the (k+1)-st attempt) succeeds after k
failing attempts, `send_packet` returns `True` after exactly k + 1
attempts and increments `packets_sent` by exactly 1. -/
theorem send_packet_retry (outcomes : Nat → Bool) :
    ((∀ k, k < 5 → outcomes k = false) →
      send_packet outcomes = ⟨false, 5, 0, 5⟩) ∧
    (∀ k, k < 5 → outcomes k = true → (∀ j, j < k → outcomes j = false) →
      send_packet outcomes = ⟨true, k + 1, 1, k⟩) := by
  constructor
  · intro h
    exact send_loop_all_fail outcomes 0 5 (fun k hk => by simpa using h k hk)
  · intro k hk hsucc hfail
    exact send_loop_first_success outcomes 0 5 k hk (by simpa using hsucc)
      (fun j hj => by simpa using hfail j hj)

/-- Witness for C4: all-fail outcomes give ⟨false, 5, 0, 5⟩, and an
oracle succeeding first at index 2 gives ⟨true, 3, 1, 2⟩. -/
theorem send_packet_retry_witness :
    send_packet (fun _ => false) = ⟨false, 5, 0, 5⟩ ∧
    send_packet (fun k => k == 2) = ⟨true, 3, 1, 2⟩ :=
  ⟨(send_packet_retry (fun _ => false)).1 (fun _ _ => rfl),
   (send_packet_retry (fun k => k == 2)).2 2 (by decide) (by decide)
     (by decide)⟩

lemma recv_loop_no_data (outcomes : Nat → RecvOutcome) (start fuel : Nat)
    (h : ∀ j, j < fuel → nonemptyData (outcomes (start + j)) = none) :
    recv_loop outcomes start fuel =
      ⟨none, fuel, 0, countErrRange outcomes start fuel⟩ := by
  induction fuel generalizing start with
  | zero => rfl
  | succ n ih =>
    have h0 : nonemptyData (outcomes start) = none := by
      simpa using h 0 (Nat.succ_pos n)
    have hrest : ∀ j, j < n → nonemptyData (outcomes (start + 1 + j)) = none := by
      intro j hj
      rw [Nat.add_assoc, Nat.add_comm 1 j]
      exact h (j + 1) (Nat.succ_lt_succ hj)
    rw [recv_loop, countErrRange]
    cases hout : outcomes start with
    | err =>
      dsimp only
      rw [ih (start + 1) hrest, if_pos rfl]
      dsimp only
      rw [Nat.add_comm 1 (countErrRange outcomes (start + 1) n)]
    | data d =>
      rw [hout] at h0
      simp only [nonemptyData] at h0
      dsimp only
      by_cases hd : d.isEmpty = true
      · rw [if_pos hd, ih (start + 1) hrest, if_neg (by simp), Nat.zero_add]
      · rw [if_neg hd] at h0
        exact Option.noConfusion h0

lemma recv_loop_first_data (outcomes : Nat → RecvOutcome) (start fuel k : Nat)
    (d : List Nat) (hk : k < fuel)
    (hd : nonemptyData (outcomes (start + k)) = some d)
    (hprev : ∀ j, j < k → nonemptyData (outcomes (start + j)) = none) :
    recv_loop outcomes start fuel =
      ⟨some d, k + 1, 1, countErrRange outcomes start k⟩ := by
  induction k generalizing start fuel with
  | zero =>
    cases fuel with
    | zero => exact absurd hk (Nat.lt_irrefl 0)
    | succ n =>
      simp only [Nat.add_zero] at hd
      rw [recv_loop]
      cases hout : outcomes start with
      | err =>
        rw [hout] at hd
        simp only [nonemptyData] at hd
        exact Option.noConfusion hd
      | data d2 =>
        rw [hout] at hd
        simp only [nonemptyData] at hd
        dsimp only
        by_cases hempty : d2.isEmpty = true
        · rw [if_pos hempty] at hd
          exact Option.noConfusion hd
        · rw [if_neg hempty] at hd
          rw [if_neg hempty]
          injection hd with hdd
          subst hdd
          rfl
  | succ m ih =>
    cases fuel with
    | zero => exact absurd hk (Nat.not_lt_zero _)
    | succ n =>
      have h0 : nonemptyData (outcomes start) = none := by
        simpa using hprev 0 (Nat.succ_pos m)
      have hd2 : nonemptyData (outcomes (start + 1 + m)) = some d := by
        rw [Nat.add_assoc, Nat.add_comm 1 m]
        exact hd
      have hprev2 : ∀ j, j < m → nonemptyData (outcomes (start + 1 + j)) = none := by
        intro j hj
        rw [Nat.add_assoc, Nat.add_comm 1 j]
        exact hprev (j + 1) (Nat.succ_lt_succ hj)
      rw [recv_loop, countErrRange]
      cases hout : outcomes start with
      | err =>
        dsimp only
        rw [ih (start + 1) n (Nat.lt_of_succ_lt_succ hk) hd2 hprev2, if_pos rfl]
        dsimp only
        rw [Nat.add_comm 1 (countErrRange outcomes (start + 1) m)]
      | data d2 =>
        rw [hout] at h0
        simp only [nonemptyData] at h0
        dsimp only
        by_cases hempty : d2.isEmpty = true
        · rw [if_pos hempty,
            ih (start + 1) n (Nat.lt_of_succ_lt_succ hk) hd2 hprev2,
            if_neg (by simp), Nat.zero_add]
        · rw [if_neg hempty] at h0
          exact Option.noConfusion h0

lemma recv_loop_result_nonempty (outcomes : Nat → RecvOutcome) (start fuel : Nat)
    (d : List Nat) (h : (recv_loop outcomes start fuel).result = some d) :
    d ≠ [] := by
  induction fuel generalizing start with
  | zero => exact absurd h (by rw [recv_loop]; exact Option.noConfusion)
  | succ n ih =>
    rw [recv_loop] at h
    cases hout : outcomes start with
    | err =>
      rw [hout] at h
      dsimp only at h
      exact ih (start + 1) h
    | data d2 =>
      rw [hout] at h
      dsimp only at h
      by_cases hempty : d2.isEmpty = true
      · rw [if_pos hempty] at h
        dsimp only at h
        exact ih (start + 1) h
      · rw [if_neg hempty] at h
        dsimp only at h
        injection h with h2
        subst h2
        intro hnil
        subst hnil
        simp at hempty

/-- C5 counterexample -- the claim says an attempt that yields an
empty result retries "with the same backoff (disconnect plus a
2-second sleep) as a failed attempt".  Under five raising attempts
`receive_packet` performs five backoffs, but under five attempts that
all return the empty byte string it performs zero backoffs (the empty
result falls through the `if data:` test with no `except` handler
run), so the empty case does not back off like the failing case. -/
theorem receive_packet_empty_no_backoff_cex :
    receive_packet (fun _ => .err) =
      ⟨none, 5, 0, 5⟩ ∧
    receive_packet (fun _ => .data []) =
      ⟨none, 5, 0, 0⟩ ∧
    (receive_packet (fun _ => .data [])).backoffs ≠
      (receive_packet (fun _ => .err)).backoffs := by
  refine ⟨rfl, rfl, ?_⟩
  decide

/-- C5 (amended) -- On each receive attempt, a non-empty result
increments `packets_received` by 1 and is returned immediately; a
raising attempt retries after one disconnect-and-2-second-sleep
backoff; an attempt yielding an empty result retries immediately with
no backoff (so the backoff count equals the number of raising
attempts performed); after exhausting all `RETRY_LIMIT = 5` attempts,
`receive_packet` returns no-data — never an empty byte string. -/
theorem receive_packet_retry (outcomes : Nat → RecvOutcome) :
    (∀ k d, k < 5 → nonemptyData (outcomes k) = some d →
      (∀ j, j < k → nonemptyData (outcomes j) = none) →
      receive_packet outcomes = ⟨some d, k + 1, 1, countErrRange outcomes 0 k⟩) ∧
    ((∀ j, j < 5 → nonemptyData (outcomes j) = none) →
      receive_packet outcomes = ⟨none, 5, 0, countErrRange outcomes 0 5⟩) ∧
    (∀ d, (receive_packet outcomes).result = some d → d ≠ []) := by
  refine ⟨?_, ?_, ?_⟩
  · intro k d hk hd hprev
    exact recv_loop_first_data outcomes 0 5 k d hk (by simpa using hd)
      (fun j hj => by simpa using hprev j hj)
  · intro h
    exact recv_loop_no_data outcomes 0 5 (fun j hj => by simpa using h j hj)
  · intro d hd
    exact recv_loop_result_nonempty outcomes 0 5 d hd

/-- Witness for C5 (amended): an oracle that raises at attempt 0,
returns empty data at attempt 1 and returns [7] at attempt 2 gives
result [7] after 3 attempts, one received-counter increment and
exactly one backoff (for the raising attempt only). -/
theorem receive_packet_retry_witness :
    receive_packet
        (fun k => if k = 0 then .err else if k = 1 then .data [] else .data [7]) =
      ⟨some [7], 3, 1, 1⟩ :=
  (receive_packet_retry _).1 2 [7] (by decide) (by decide) (by decide)

lemma get_command_code_unknown (c : String)
    (h1 : c ≠ "reboot") (h2 : c ≠ "steer")
    (h3 : c ≠ "get_photo") (h4 : c ≠ "get_telemetry") :
    get_command_code c = 0xFF := by
  unfold get_command_code command_map
  rw [List.lookup, beq_false_of_ne h1, List.lookup, beq_false_of_ne h2,
    List.lookup, beq_false_of_ne h3, List.lookup, beq_false_of_ne h4,
    List.lookup]
  rfl

lemma send_command_overlong (send : List Nat → Bool) (c : String)
    (params : Option (List Nat)) (now : Nat)
    (h : 65530 ≤ (params.getD []).length) :
    send_command send c params now = .error "struct.error" := by
  unfold send_command build_space_packet
  dsimp only
  rw [if_neg ?_]
  · rfl
  · intro hcond
    simp only [Bool.and_eq_true, decide_eq_true_eq, List.length_cons] at hcond
    unfold PRIMARY_HEADER_SIZE at hcond
    omega

/-- C8 counterexample -- the claim quantifies over every command name
and optional params and says the result is exactly the transport
`send`'s result on the built frame.  With params of 65530 bytes the
length field is `65531 + 5 = 65536`, which does not fit the unsigned
16-bit header slot: `struct.pack('>HHH', …)` raises `struct.error`,
`send_command` raises instead of returning, and no boolean — the
transport's result here would be `True` — is produced. -/
theorem send_command_overlong_cex :
    send_command (fun _ => true) "steer" (some (List.replicate 65530 0)) 0 =
      .error "struct.error" ∧
    send_command (fun _ => true) "steer" (some (List.replicate 65530 0)) 0 ≠
      .ok true ∧
    send_command (fun _ => true) "steer" (some (List.replicate 65530 0)) 0 ≠
      .ok false := by
  have h := send_command_overlong (fun _ => true) "steer"
    (some (List.replicate 65530 0)) 0
    (by simp only [Option.getD_some, List.length_replicate, le_refl])
  refine ⟨h, ?_, ?_⟩ <;> rw [h] <;> exact fun hh => Except.noConfusion hh

/-- C8 (amended) -- `send_command` behaviour: the name-to-code table
maps reboot to 0x01, steer to 0x02, get_photo to 0x03, get_telemetry
to 0x04 and any other name to 0xFF (the frame is still built and
transmitted, never rejected locally); for any command name, clock
reading, and params of at most 65529 bytes (so that the length field
fits its unsigned 16-bit header slot), the frame payload is the
single code byte followed by `params or b''`, the frame carries apid
0x100 and sequence `now mod 2^16` (the current integer time truncated
to 16 bits), and the result of `send_command` is exactly the
transport `send`'s result on that frame; for longer params,
`struct.pack` raises `struct.error` and `send_command` raises instead
of returning a result. -/
theorem send_command_spec :
    get_command_code "reboot" = 0x01 ∧
    get_command_code "steer" = 0x02 ∧
    get_command_code "get_photo" = 0x03 ∧
    get_command_code "get_telemetry" = 0x04 ∧
    (∀ c : String, c ≠ "reboot" → c ≠ "steer" → c ≠ "get_photo" →
      c ≠ "get_telemetry" → get_command_code c = 0xFF) ∧
    (∀ (send : List Nat → Bool) (c : String) (params : Option (List Nat))
       (now : Nat), (params.getD []).length ≤ 65529 →
      ∃ frame,
        build_space_packet 0x100 (now % 65536)
          (get_command_code c :: params.getD []) = .ok frame ∧
        send_command send c params now = .ok (send frame) ∧
        parse_space_packet frame =
          .ok (0x100, now % 65536, get_command_code c :: params.getD [])) ∧
    (∀ (send : List Nat → Bool) (c : String) (params : Option (List Nat))
       (now : Nat), 65530 ≤ (params.getD []).length →
      send_command send c params now = .error "struct.error") := by
  refine ⟨rfl, rfl, rfl, rfl, get_command_code_unknown, ?_,
    send_command_overlong⟩
  intro send c params now hlen
  obtain ⟨frame, hbuild, hparse⟩ :=
    build_parse_ok 0x100 (now % 65536) (get_command_code c :: params.getD [])
      (by omega) (Nat.le_of_lt_succ (Nat.mod_lt now (by omega)))
      (by simpa using hlen)
  refine ⟨frame, hbuild, ?_, hparse⟩
  unfold send_command
  dsimp only
  rw [hbuild]
  rfl

/-- Witness for C8 (amended): an unknown name maps to 0xFF, a
concrete steer command with params [1, 2] at time 70000 produces a
frame that the abstract transport accepts, and a reboot command with
65530 bytes of params raises `struct.error`. -/
theorem send_command_spec_witness :
    get_command_code "wibble" = 0xFF ∧
    (∃ frame,
      build_space_packet 0x100 (70000 % 65536)
        (get_command_code "steer" :: (some [1, 2] : Option (List Nat)).getD []) =
        .ok frame ∧
      send_command (fun _ => true) "steer" (some [1, 2]) 70000 =
        .ok ((fun _ => true) frame) ∧
      parse_space_packet frame =
        .ok (0x100, 70000 % 65536,
          get_command_code "steer" :: (some [1, 2] : Option (List Nat)).getD [])) ∧
    send_command (fun _ => false) "reboot" (some (List.replicate 65530 7)) 5 =
      .error "struct.error" :=
  ⟨send_command_spec.2.2.2.2.1 "wibble" (by decide) (by decide) (by decide)
     (by decide),
   send_command_spec.2.2.2.2.2.1 (fun _ => true) "steer" (some [1, 2]) 70000
     (by decide),
   send_command_spec.2.2.2.2.2.2 (fun _ => false) "reboot"
     (some (List.replicate 65530 7)) 5
     (by simp only [Option.getD_some, List.length_replicate, le_refl])⟩

/-- C6 -- `request_photo` returns no-data exactly when sending the
get_photo command fails; when the loop ends by a failed receive it
returns the bytes accumulated so far in the same `.ok (some …)` shape
as full success; a frame payload ending with the sentinel byte 0xFF
is appended minus that byte and terminates the loop.  In particular,
payloads "AB", "C", "D"+0xFF in that order yield the bytes "ABCD",
and "AB" followed by a failed receive yields "AB". -/
theorem request_photo_spec :
    (∀ (sendOk : Bool) (recvs : Nat → Option (List Nat)) (fuel : Nat)
       (out : Except String (Option (List Nat))),
      request_photo sendOk recvs fuel = some out →
      (out = .ok none ↔ sendOk = false)) ∧
    request_photo true
      (fun i => if i = 0 then some [0, 1, 0, 0, 0, 7, 65, 66]
                else if i = 1 then some [0, 1, 0, 1, 0, 6, 67]
                else some [0, 1, 0, 2, 0, 7, 68, 255]) 4 =
      some (.ok (some [65, 66, 67, 68])) ∧
    request_photo true
      (fun i => if i = 0 then some [0, 1, 0, 0, 0, 7, 65, 66] else none) 4 =
      some (.ok (some [65, 66])) := by
  refine ⟨?_, rfl, rfl⟩
  intro sendOk recvs fuel out h
  cases sendOk with
  | false =>
    unfold request_photo at h
    rw [if_neg (by simp)] at h
    injection h with h2
    constructor
    · intro _
      rfl
    · intro _
      exact h2.symm
  | true =>
    unfold request_photo at h
    rw [if_pos rfl] at h
    obtain ⟨r, _, hout⟩ := Option.map_eq_some'.mp h
    constructor
    · intro hnone
      rw [← hout] at hnone
      cases r with
      | ok l => exact absurd (Except.ok.inj hnone) (Option.noConfusion)
      | error e => exact absurd hnone (Except.noConfusion)
    · intro hfalse
      exact absurd hfalse (by simp)

/-- Witness for C6: the no-data iff applied to the mid-stream receive
failure scenario, whose outcome `.ok (some "AB")` is not no-data,
matching the send having succeeded. -/
theorem request_photo_spec_witness :
    ((Except.ok (some [65, 66]) : Except String (Option (List Nat))) =
        .ok none ↔ true = false) :=
  request_photo_spec.1 true
    (fun i => if i = 0 then some [0, 1, 0, 0, 0, 7, 65, 66] else none) 4
    (.ok (some [65, 66])) rfl

lemma pySplit_ne_nil (sep : Char) (s : List Char) : pySplit sep s ≠ [] := by
  cases s with
  | nil => simp [pySplit]
  | cons c cs =>
    rw [pySplit]
    by_cases hc : c = sep
    · rw [if_pos hc]
      simp
    · rw [if_neg hc]
      cases hsp : pySplit sep cs with
      | nil => simp
      | cons s1 rest => simp

lemma pySplit_not_mem (sep : Char) (s : List Char) (h : sep ∉ s) :
    pySplit sep s = [s] := by
  induction s with
  | nil => rfl
  | cons c cs ih =>
    rw [pySplit]
    have hc : ¬ c = sep := fun hh => h (List.mem_cons.mpr (Or.inl hh.symm))
    rw [if_neg hc, ih (fun hm => h (List.mem_cons_of_mem c hm))]

lemma pySplit_length (sep : Char) (s : List Char) :
    (pySplit sep s).length = s.count sep + 1 := by
  induction s with
  | nil => rfl
  | cons c cs ih =>
    rw [pySplit]
    by_cases hc : c = sep
    · subst hc
      rw [if_pos rfl]
      simp only [List.length_cons, ih, List.count_cons_self]
    · rw [if_neg hc]
      cases hsp : pySplit sep cs with
      | nil => exact absurd hsp (pySplit_ne_nil sep cs)
      | cons s1 rest =>
        rw [hsp] at ih
        simp only [List.length_cons] at ih ⊢
        rw [List.count_cons_of_ne (Ne.symm hc)]
        omega

lemma pySplit_count_one (s : List Char) (h : s.count '=' = 1) :
    pySplit '=' s =
      [s.takeWhile (fun c => c != '='), (s.dropWhile (fun c => c != '=')).tail] := by
  induction s with
  | nil => simp at h
  | cons c cs ih =>
    by_cases hc : c = '='
    · subst hc
      rw [List.count_cons_self] at h
      have h0 : '=' ∉ cs := List.count_eq_zero.mp (by omega)
      rw [pySplit, if_pos rfl, pySplit_not_mem '=' cs h0]
      simp [List.takeWhile_cons, List.dropWhile_cons]
    · have hcb : (c != '=') = true := bne_iff_ne.mpr hc
      rw [List.count_cons_of_ne (Ne.symm hc)] at h
      rw [pySplit, if_neg hc, ih h]
      simp [List.takeWhile_cons, List.dropWhile_cons, hcb]

lemma pairsOf_all_one (items : List (List Char))
    (h : ∀ s ∈ items, s.count '=' = 1) :
    pairsOf items = some (items.map (fun s =>
      (s.takeWhile (fun c => c != '='), (s.dropWhile (fun c => c != '=')).tail))) := by
  induction items with
  | nil => rfl
  | cons item rest ih =>
    rw [pairsOf, pySplit_count_one item (h item (List.mem_cons_self item rest)),
      ih (fun s hs => h s (List.mem_cons_of_mem item hs))]
    rfl

lemma pairsOf_bad (items : List (List Char)) (item : List Char)
    (hmem : item ∈ items) (hbad : ∀ k v, pySplit '=' item ≠ [k, v]) :
    pairsOf items = none := by
  induction items with
  | nil => simp at hmem
  | cons it rest ih =>
    rw [pairsOf]
    rcases List.mem_cons.mp hmem with heq | hmem2
    · subst heq
      cases hsp : pySplit '=' item with
      | nil => rfl
      | cons k tl =>
        cases tl with
        | nil => rfl
        | cons v tl2 =>
          cases tl2 with
          | nil => exact absurd hsp (hbad k v)
          | cons w tl3 => rfl
    · cases hsp : pySplit '=' it with
      | nil => rfl
      | cons k tl =>
        cases tl with
        | nil => rfl
        | cons v tl2 =>
          cases tl2 with
          | nil =>
            rw [ih hmem2]
            rfl
          | cons w tl3 => rfl

/-- C1 counterexample -- the claim says a segment with more than one
`=` yields the key before the first `=` and everything after it as
the value.  On the payload "a=b=c" the code's `item.split('=')`
yields three parts, the `dict` constructor raises ValueError, and the
`except` handler returns no-data — not the map {"a": "b=c"} the claim
predicts (here wrapped in a well-formed frame with a 6-byte header). -/
theorem request_telemetry_first_eq_cex :
    request_telemetry true (some [0, 0, 0, 0, 0, 10, 97, 61, 98, 61, 99]) =
      .ok none ∧
    telemetry_parse [97, 61, 98, 61, 99] = none ∧
    (none : Option (List (List Char × List Char))) ≠
      some [(['a'], ['b', '=', 'c'])] := by
  refine ⟨rfl, rfl, ?_⟩
  simp

/-- C1 (amended) -- For every telemetry payload inside a parseable
frame, `request_telemetry` decodes the payload as text (invalid bytes
ignored), splits on commas and drops segments without `=`; each kept
segment is split on every `=`: when every kept segment contains
exactly one `=` the result maps each segment to (text before the `=`,
text after it), and when some kept segment contains more than one `=`
the dict construction raises and the whole parse yields no-data, not
a partial map. -/
theorem request_telemetry_parse_spec (apid seq : Nat)
    (payload packet : List Nat)
    (hpk : parse_space_packet packet = .ok (apid, seq, payload)) :
    request_telemetry true (some packet) = .ok (telemetry_parse payload) ∧
    ((∀ s ∈ (pySplit ',' (utf8DecodeIgnore payload)).filter
        (fun t => '=' ∈ t), s.count '=' = 1) →
      telemetry_parse payload =
        some (((pySplit ',' (utf8DecodeIgnore payload)).filter
            (fun t => '=' ∈ t)).map
          (fun s => (s.takeWhile (fun c => c != '='),
                     (s.dropWhile (fun c => c != '=')).tail)))) ∧
    ((∃ s ∈ (pySplit ',' (utf8DecodeIgnore payload)).filter
        (fun t => '=' ∈ t), s.count '=' ≠ 1) →
      telemetry_parse payload = none) := by
  have hemp : packet.isEmpty = false := by
    unfold parse_space_packet PRIMARY_HEADER_SIZE at hpk
    by_cases hl : packet.length < 6
    · rw [if_pos hl] at hpk
      exact absurd hpk Except.noConfusion
    · cases packet with
      | nil => simp at hl
      | cons a t => rfl
  refine ⟨?_, ?_, ?_⟩
  · simp only [request_telemetry, Bool.not_true, Bool.false_eq_true, if_false]
    rw [hpk, hemp]
    simp only [Bool.false_eq_true, if_false]
  · intro hall
    unfold telemetry_parse
    exact pairsOf_all_one _ hall
  · intro ⟨s, hs, hcnt⟩
    have hmem : '=' ∈ s := by
      have := (List.mem_filter.mp hs).2
      simpa using this
    have hpos : 0 < s.count '=' := List.count_pos_iff.mpr hmem
    have hbad : ∀ k v, pySplit '=' s ≠ [k, v] := by
      intro k v hkv
      have hl := pySplit_length '=' s
      rw [hkv] at hl
      simp only [List.length_cons, List.length_nil] at hl
      omega
    unfold telemetry_parse
    exact pairsOf_bad _ s hs hbad

/-- Witness for C1 (amended) at the payload "a=1" in a well-formed
frame: a single kept segment with exactly one `=` maps to
("a", "1"). -/
theorem request_telemetry_parse_spec_witness :
    telemetry_parse [97, 61, 49] =
      some (((pySplit ',' (utf8DecodeIgnore [97, 61, 49])).filter
          (fun t => '=' ∈ t)).map
        (fun s => (s.takeWhile (fun c => c != '='),
                   (s.dropWhile (fun c => c != '=')).tail))) :=
  (request_telemetry_parse_spec 0 0 [97, 61, 49] [0, 0, 0, 0, 0, 8, 97, 61, 49]
    rfl).2.1 (by decide)

/-- C10 -- When the command send succeeded and the received packet is
non-empty but shorter than 6 bytes, both `request_telemetry` and
`request_photo` let `parse_space_packet`'s ValueError propagate to
the caller (the parse sits outside any `try:` block), instead of
collapsing it into a no-data result. -/
theorem short_frame_error_propagates (p : List Nat)
    (hne : p ≠ []) (hlen : p.length < 6) :
    request_telemetry true (some p) = .error "Packet too short" ∧
    ∀ fuel : Nat, request_photo true (fun _ => some p) (fuel + 1) =
      some (.error "Packet too short") := by
  have hp : parse_space_packet p = .error "Packet too short" := by
    unfold parse_space_packet
    rw [if_pos (by unfold PRIMARY_HEADER_SIZE; omega)]
  have hemp : p.isEmpty = false := by
    cases p with
    | nil => exact absurd rfl hne
    | cons a t => rfl
  constructor
  · simp only [request_telemetry, Bool.not_true, Bool.false_eq_true, if_false]
    rw [hp, hemp]
    simp only [Bool.false_eq_true, if_false]
  · intro fuel
    unfold request_photo
    rw [if_pos rfl, photo_loop]
    simp [hp, hemp, Except.map]

/-- Witness for C10 at the 3-byte packet [1, 2, 3]. -/
theorem short_frame_error_propagates_witness :
    request_telemetry true (some [1, 2, 3]) = .error "Packet too short" ∧
    ∀ fuel : Nat, request_photo true (fun _ => some [1, 2, 3]) (fuel + 1) =
      some (.error "Packet too short") :=
  short_frame_error_propagates [1, 2, 3] (by simp) (by simp)

lemma packF32_length (x : PyFloat) (bs : List Nat)
    (h : packF32 x = some bs) : bs.length = 4 := by
  cases x with
  | nan =>
    simp only [packF32, Option.some.injEq] at h
    subst h
    rfl
  | inf neg =>
    simp only [packF32, Option.some.injEq] at h
    subst h
    rfl
  | finite neg n e =>
    simp only [packF32] at h
    split at h
    · simp only [Option.some.injEq] at h
      subst h
      rfl
    · split at h
      · exact Option.noConfusion h
      · split at h
        · simp only [Option.some.injEq] at h
          subst h
          rfl
        · simp only [Option.some.injEq] at h
          subst h
          rfl

set_option maxRecDepth 1000000 in
/-- C9 counterexample -- with every pos key present and numeric in
both maps (current all "0", target pos_x = "1e40"), the scaled pos_x
delta (1e39) overflows the 32-bit float range, `struct.pack('>fff', …)`
raises OverflowError, and the `except` handler returns the empty byte
string: "empty exactly when a key is absent or non-numeric in either
map" is false. -/
theorem calculate_steering_overflow_cex :
    calculate_steering
      [(pos_x_key, ['0']), (pos_y_key, ['0']), (pos_z_key, ['0'])]
      [(pos_x_key, ['1', 'e', '4', '0']), (pos_y_key, ['0']), (pos_z_key, ['0'])] =
      [] ∧
    ∀ k ∈ [pos_x_key, pos_y_key, pos_z_key],
      (float_of_field
        [(pos_x_key, ['0']), (pos_y_key, ['0']), (pos_z_key, ['0'])] k).isSome ∧
      (float_of_field
        [(pos_x_key, ['1', 'e', '4', '0']), (pos_y_key, ['0']),
         (pos_z_key, ['0'])] k).isSome := by
  constructor
  · decide
  · decide

set_option maxRecDepth 1000000 in
/-- C9 (amended) -- `calculate_steering` returns the empty byte
sequence when any of pos_x, pos_y, pos_z is absent or non-numeric in
either map, and also when one of the scaled per-axis deltas
(target − current, times the gain 0.1, computed in binary64)
overflows the 32-bit float range during packing; when all six fields
parse and all three scaled deltas pack, it returns exactly the 12
bytes of the three big-endian 32-bit floats.  In particular current
all-"0" and target pos_x = "10" give the packed floats
(1.0, 0.0, 0.0). -/
theorem calculate_steering_spec
    (current target : List (List Char × List Char)) :
    ((float_of_field target pos_x_key = none ∨
      float_of_field current pos_x_key = none ∨
      float_of_field target pos_y_key = none ∨
      float_of_field current pos_y_key = none ∨
      float_of_field target pos_z_key = none ∨
      float_of_field current pos_z_key = none) →
      calculate_steering current target = []) ∧
    (∀ tx cx ty cy tz cz,
      float_of_field target pos_x_key = some tx →
      float_of_field current pos_x_key = some cx →
      float_of_field target pos_y_key = some ty →
      float_of_field current pos_y_key = some cy →
      float_of_field target pos_z_key = some tz →
      float_of_field current pos_z_key = some cz →
      ((∀ bx b2 bz,
        packF32 (pyMul (pySub tx cx) pointOne) = some bx →
        packF32 (pyMul (pySub ty cy) pointOne) = some b2 →
        packF32 (pyMul (pySub tz cz) pointOne) = some bz →
        calculate_steering current target = bx ++ b2 ++ bz ∧
        (calculate_steering current target).length = 12) ∧
       ((packF32 (pyMul (pySub tx cx) pointOne) = none ∨
         packF32 (pyMul (pySub ty cy) pointOne) = none ∨
         packF32 (pyMul (pySub tz cz) pointOne) = none) →
        calculate_steering current target = []))) ∧
    calculate_steering
      [(pos_x_key, ['0']), (pos_y_key, ['0']), (pos_z_key, ['0'])]
      [(pos_x_key, ['1', '0']), (pos_y_key, ['0']), (pos_z_key, ['0'])] =
      [0x3F, 0x80, 0, 0, 0, 0, 0, 0, 0, 0, 0, 0] := by
  refine ⟨?_, ?_, by decide⟩
  · intro h
    unfold calculate_steering
    rcases hx : float_of_field target pos_x_key with _ | tx <;>
      rcases hcx : float_of_field current pos_x_key with _ | cx <;>
      rcases hy : float_of_field target pos_y_key with _ | ty <;>
      rcases hcy : float_of_field current pos_y_key with _ | cy <;>
      rcases hz : float_of_field target pos_z_key with _ | tz <;>
      rcases hcz : float_of_field current pos_z_key with _ | cz <;>
      first
        | rfl
        | (rcases h with h | h | h | h | h | h <;> simp_all)
  · intro tx cx ty cy tz cz hx hcx hy hcy hz hcz
    constructor
    · intro bx b2 bz hbx hby hbz
      have hval : calculate_steering current target = bx ++ b2 ++ bz := by
        unfold calculate_steering
        rw [hx, hcx, hy, hcy, hz, hcz]
        dsimp only
        rw [hbx, hby, hbz]
      refine ⟨hval, ?_⟩
      rw [hval]
      simp [List.length_append, packF32_length _ _ hbx,
        packF32_length _ _ hby, packF32_length _ _ hbz]
    · intro hor
      unfold calculate_steering
      rw [hx, hcx, hy, hcy, hz, hcz]
      dsimp only
      rcases hbx : packF32 (pyMul (pySub tx cx) pointOne) with _ | bx <;>
        rcases hby : packF32 (pyMul (pySub ty cy) pointOne) with _ | b2 <;>
        rcases hbz : packF32 (pyMul (pySub tz cz) pointOne) with _ | bz <;>
        first
          | rfl
          | (rcases hor with h | h | h <;> simp_all)

set_option maxRecDepth 1000000 in
/-- Witness for C9 (amended): empty maps miss every key and give
`b''`, and the claim's example — current all "0", target
pos_x = "10" — packs to (1.0, 0.0, 0.0). -/
theorem calculate_steering_spec_witness :
    calculate_steering [] [] = [] ∧
    calculate_steering
      [(pos_x_key, ['0']), (pos_y_key, ['0']), (pos_z_key, ['0'])]
      [(pos_x_key, ['1', '0']), (pos_y_key, ['0']), (pos_z_key, ['0'])] =
      [0x3F, 0x80, 0, 0] ++ [0, 0, 0, 0] ++ [0, 0, 0, 0] :=
  ⟨(calculate_steering_spec [] []).1 (Or.inl rfl),
   (((calculate_steering_spec
        [(pos_x_key, ['0']), (pos_y_key, ['0']), (pos_z_key, ['0'])]
        [(pos_x_key, ['1', '0']), (pos_y_key, ['0']), (pos_z_key, ['0'])]).2.1
      (.finite false 5629499534213120 (-49)) (.finite false 0 0)
      (.finite false 0 0) (.finite false 0 0)
      (.finite false 0 0) (.finite false 0 0)
      (by decide) (by decide) (by decide) (by decide) (by decide)
      (by decide)).1
    [0x3F, 0x80, 0, 0] [0, 0, 0, 0] [0, 0, 0, 0]
    (by decide) (by decide) (by decide)).1⟩
